import Mathlib

/-!
Verification of the flyboard-agent-router repository: a shallow embedding of
the knowledge-base retrieval engine (`src/tools/search_kb.py`), the action
tools (`src/tools/create_tickets.py`, `src/tools/followup.py`) and the
tool-calling orchestration loop (`src/agent/runner.py`), together with
theorems settling the specification's claims about them.

Text is modelled as `List Char` (`Str`).  Python string operations used by
the source (`.lower()`, `.strip()`, `.find()`, slicing, `in`) are embedded
as executable functions on `Str`; machine floats from the normalization
step are idealized as exact rationals, with Python's `round(x, 6)`
embedded as round-half-to-even on `ℚ`.
-/

/-- Text, modelled as a list of characters (Python `str`). -/
abbrev Str := List Char

/-- Python `str.lower` on a single character (ASCII range, as exercised by
the repository's data). -/
def lowerChar (c : Char) : Char :=
  if 'A' ≤ c ∧ c ≤ 'Z' then Char.ofNat (c.toNat + 32) else c

/-- Python `str.lower`. -/
def pyLower (s : Str) : Str := s.map lowerChar

/-- Whitespace characters stripped by Python `str.strip`. -/
def isWs (c : Char) : Bool :=
  c == ' ' || c == '\t' || c == '\n' || c == '\r' ||
  c == Char.ofNat 11 || c == Char.ofNat 12

/-- Python `str.strip`: drop leading and trailing whitespace. -/
def pyStrip (s : Str) : Str :=
  ((s.dropWhile isWs).reverse.dropWhile isWs).reverse

/-- A character matched by the token regular expression `[a-z0-9]+` after
lowercasing (`_TOKEN_RE` in `search_kb.py`). -/
def isAlnumLower (c : Char) : Bool :=
  decide (('a' ≤ c ∧ c ≤ 'z') ∨ ('0' ≤ c ∧ c ≤ '9'))

/-- Accumulator worker for `alnumRuns`: `acc` holds the current run,
reversed. -/
def alnumRunsAux : Str → Str → List Str
  | [], acc => if acc.isEmpty then [] else [acc.reverse]
  | c :: cs, acc =>
    if isAlnumLower c then alnumRunsAux cs (c :: acc)
    else if acc.isEmpty then alnumRunsAux cs []
    else acc.reverse :: alnumRunsAux cs []

/-- `_TOKEN_RE.findall`: the maximal runs of `[a-z0-9]` characters, in
order (the input is lowercased first by `_tokenize`). -/
def alnumRuns (s : Str) : List Str := alnumRunsAux s []

/-- The fixed synonym table `_SYNONYMS` of `search_kb.py`. -/
def synonymTable : List (Str × Str) :=
  [ ("hubspot".toList, "crm".toList)
  , ("salesforce".toList, "crm".toList)
  , ("ops".toList, "operations".toList)
  , ("ticket".toList, "ticket".toList)
  , ("tickets".toList, "ticket".toList)
  , ("writeback".toList, "writeback".toList)
  , ("write".toList, "write".toList)
  , ("back".toList, "back".toList)
  , ("failing".toList, "failed".toList)
  , ("failure".toList, "failed".toList) ]

/-- `_SYNONYMS.get(t, t)`: fold a token through the synonym table. -/
def synGet (t : Str) : Str :=
  match synonymTable.lookup t with
  | some g => g
  | none => t

/-- The fixed stop-word set `_STOPWORDS` of `search_kb.py`. -/
def stopwords : List Str :=
  [ "a".toList, "an".toList, "the".toList, "to".toList, "and".toList
  , "or".toList, "of".toList, "in".toList, "on".toList, "for".toList
  , "we".toList, "re".toList, "since".toList, "this".toList
  , "morning".toList, "what".toList, "should".toList, "can".toList
  , "you".toList, "me".toList ]

/-- The fixed troubleshooting vocabulary `_TROUBLESHOOTING_HINTS`. -/
def troubleshootingHints : List Str :=
  [ "troubleshoot".toList, "troubleshooting".toList, "failed".toList
  , "failure".toList, "error".toList, "issue".toList, "incident".toList
  , "broken".toList, "not".toList, "working".toList, "timeout".toList
  , "rate".toList, "limit".toList, "complaint".toList, "degraded".toList ]

/-- The fixed escalation vocabulary `_ESCALATION_HINTS`. -/
def escalationHints : List Str :=
  [ "ticket".toList, "high".toList, "high_priority".toList
  , "priority".toList, "operations".toList, "incident".toList
  , "production".toList, "escalate".toList, "escalation".toList ]

/-- `_tokenize` of `search_kb.py`: lowercase, split into alphanumeric runs,
fold each token through the synonym table, drop stop-words. -/
def tokenize (text : Str) : List Str :=
  ((alnumRuns (pyLower text)).map synGet).filter
    (fun t => !(stopwords.contains t))

/-- `_is_troubleshooting_query`: the query's token set meets the
troubleshooting vocabulary. -/
def isTroubleshootingQuery (qts : List Str) : Bool :=
  qts.any (fun t => troubleshootingHints.contains t)

/-- `_is_escalation_query`: the query's token set meets the escalation
vocabulary. -/
def isEscalationQuery (qts : List Str) : Bool :=
  qts.any (fun t => escalationHints.contains t)

/-- A knowledge-base entry (`KBEntry` in `search_kb.py`). -/
structure KBEntry where
  id : Str
  title : Str
  tags : List Str
  audience : Str
  lastUpdated : Option Str
  content : Str

/-- First index at which `pat` occurs as a contiguous substring of `hay`
(Python `str.find`, with `none` for the `-1` result). -/
def substrFind (hay pat : Str) : Option Nat :=
  (List.range (hay.length + 1)).find? (fun i => pat.isPrefixOf (hay.drop i))

/-- Python's `in` operator on strings: contiguous-substring containment. -/
def substrContains (hay pat : Str) : Bool := (substrFind hay pat).isSome

/-- The `for token in query_tokens` minimum-position loop of
`_build_snippet`: earliest offset at which any query token occurs in the
(lowercased) content, `none` when no token occurs. -/
def firstTokenPos (lowerC : Str) (qts : List Str) : Option Nat :=
  qts.foldl
    (fun acc t =>
      match substrFind lowerC t with
      | none => acc
      | some p =>
        match acc with
        | none => some p
        | some q => if p < q then some p else acc)
    none

/-- The ellipsis marker appended by `_build_snippet` when a window is
clipped. -/
def ellipsis : Str := "...".toList

/-- The no-match branch of `_build_snippet`: the first
`snippet_length`-character window of the stripped content, with a trailing
ellipsis when the content is longer. -/
def fallbackWindow (c : Str) : Str :=
  c.take 220 ++ (if 220 < c.length then ellipsis else [])

/-- The match branch of `_build_snippet`: a `snippet_length`-character
window centred on the earliest token offset `fp`, clipped at the content
boundaries, re-stripped, with an ellipsis on each clipped side. -/
def windowAt (c : Str) (fp : Nat) : Str :=
  let start := fp - 110
  let stop := min c.length (start + 220)
  let snip := pyStrip ((c.drop start).take (stop - start))
  let snip := if 0 < start then ellipsis ++ snip else snip
  if stop < c.length then snip ++ ellipsis else snip

/-- `_build_snippet` of `search_kb.py` with its default
`snippet_length = 220`.  Note the query tokens it receives from
`search_kb` are the post-synonym-fold, post-stop-word tokenized query. -/
def buildSnippet (content : Str) (qts : List Str) : Str :=
  if content = [] then []
  else if qts = [] then fallbackWindow (pyStrip content)
  else
    match firstTokenPos (pyLower (pyStrip content)) qts with
    | none => fallbackWindow (pyStrip content)
    | some fp => windowAt (pyStrip content) fp

/-- `_score_entry` of `search_kb.py`: per query token (with multiplicity),
5 points per title occurrence, 3 per exact tag match, 1 per content
occurrence. -/
def scoreEntry (e : KBEntry) (qts : List Str) : Nat :=
  let titleToks := tokenize (pyLower e.title)
  let contentToks := tokenize (pyLower e.content)
  let tags := e.tags.map pyLower
  qts.foldl
    (fun s t => s + 5 * titleToks.count t + 3 * tags.count t + contentToks.count t)
    0

/-- Embedded Python exceptions raised by the repository's functions. -/
inductive PyErr where
  | valueError
  | attributeError
  | typeError
deriving DecidableEq

/-- The caller-supplied `filters` dictionary of `search_kb`.  A Python
`None` or empty dict is modelled as `Option.none` at the call site (both
are falsy, so `_soft_preference_bonus` returns early on either); a
non-empty dict is `some` of this structure, where `audience = none` means
the key is absent or maps to `None`, and likewise for `tags`. -/
structure Filters where
  audience : Option Str
  tags : Option (List Str)

/-- The filter-independent part of `_soft_preference_bonus`: the
troubleshooting/audience heuristic followed by the escalation
heuristic. -/
def softBaseBonus (e : KBEntry) (qts : List Str) : Nat :=
  let entryAudience := pyLower e.audience
  let entryTitle := pyLower e.title
  let entryTags := e.tags.map pyLower
  let isTrouble := isTroubleshootingQuery qts
  let isEsc := isEscalationQuery qts
  (if isTrouble ∧ entryAudience = "internal".toList then 4
   else if entryAudience = "customer".toList then 2 else 0) +
  (if isEsc then
    (if substrContains entryTitle ("escalation".toList) then 8 else 0) +
    (if entryTags.contains ("operations".toList) ∨ entryTags.contains ("sla".toList)
      then 4 else 0) +
    (if entryAudience = "internal".toList then 1 else 0)
   else 0)

/-- The audience-filter part of `_soft_preference_bonus`: 2 points when
the requested audience is non-blank, aligns with the query's
troubleshooting classification (internal for troubleshooting queries,
customer otherwise) and matches the entry's audience. -/
def audienceFilterBonus (e : KBEntry) (qts : List Str) (av : Str) : Nat :=
  if pyStrip av ≠ [] then
    let ra := pyStrip (pyLower av)
    if ((isTroubleshootingQuery qts ∧ ra = "internal".toList) ∨
        (¬isTroubleshootingQuery qts ∧ ra = "customer".toList)) ∧
        pyLower e.audience = ra
    then 2 else 0
  else 0

/-- The tag-filter part of `_soft_preference_bonus`: one point per
distinct non-blank filter tag also carried (case-insensitively) by the
entry. -/
def tagsFilterBonus (e : KBEntry) (tg : Option (List Str)) : Nat :=
  match tg with
  | none => 0
  | some ts =>
    if ts ≠ [] then
      let need := ((ts.filter (fun t => pyStrip t ≠ [])).map pyLower).dedup
      let held := (e.tags.map pyLower).dedup
      (need.filter (fun t => held.contains t)).length
    else 0

/-- `_soft_preference_bonus` of `search_kb.py`.  Note that when a
non-empty `filters` dict lacks an `audience` value, the source evaluates
`None.strip()` and raises `AttributeError`. -/
def softPreferenceBonus (e : KBEntry) (qts : List Str) (filters : Option Filters) :
    Except PyErr Nat :=
  match filters with
  | none => .ok (softBaseBonus e qts)
  | some f =>
    match f.audience with
    | none => .error .attributeError
    | some av =>
      .ok (softBaseBonus e qts + audienceFilterBonus e qts av + tagsFilterBonus e f.tags)

/-- Lexicographic `≤` on text by character code: Python string comparison,
as used on `last_updated` values by the sort key of `search_kb`. -/
def strLe : Str → Str → Bool
  | [], _ => true
  | _ :: _, [] => false
  | a :: as, b :: bs => decide (a < b) || (a == b && strLe as bs)

/-- Python tuple `≤` on a `(score, last_updated)` sort key. -/
def keyLe (x y : Nat × Str) : Bool :=
  decide (x.1 < y.1) || (x.1 == y.1 && strLe x.2 y.2)

/-- The sort key `(score, last_updated or "")` used by `search_kb`'s
`scored_entries.sort(key=..., reverse=True)`. -/
def sortKey (p : KBEntry × Nat) : Nat × Str :=
  (p.2, p.1.lastUpdated.getD [])

/-- The descending order used by the `reverse=True` sort: `p` comes before
`q` when `q`'s key is at most `p`'s key. -/
def scoreDescOrder (p q : KBEntry × Nat) : Prop :=
  keyLe (sortKey q) (sortKey p) = true

instance : DecidableRel scoreDescOrder := fun p q => by
  unfold scoreDescOrder; infer_instance

/-- Python's `round` (round-half-to-even), on the rational idealization of
the floating-point score. -/
def pyRound (x : ℚ) : ℤ :=
  let n := Int.floor x
  let frac := x - n
  if frac < 1 / 2 then n
  else if 1 / 2 < frac then n + 1
  else if n % 2 = 0 then n else n + 1

/-- Python's `round(x, 6)`: round to six decimal places. -/
def round6 (x : ℚ) : ℚ := (pyRound (x * 1000000) : ℚ) / 1000000

/-- One ranked search result (`results` list element of `search_kb`). -/
structure SearchResult where
  id : Str
  title : Str
  score : ℚ
  snippet : Str
  tags : List Str
deriving DecidableEq

/-- The scoring loop of `search_kb`: entries with a zero base score are
skipped; surviving entries carry base score plus soft-preference bonus
(whose evaluation can raise, aborting the whole call). -/
def scoredEntries (qts : List Str) (filters : Option Filters) :
    List KBEntry → Except PyErr (List (KBEntry × Nat))
  | [] => .ok []
  | e :: rest =>
    let base := scoreEntry e qts
    if base = 0 then scoredEntries qts filters rest
    else
      match softPreferenceBonus e qts filters with
      | .error err => .error err
      | .ok b =>
        match scoredEntries qts filters rest with
        | .error err => .error err
        | .ok l => .ok ((e, base + b) :: l)

/-- The rendering of one kept entry into a result record: normalized,
rounded score and snippet (`results.append({...})` in `search_kb`). -/
def renderResult (qts : List Str) (maxScore : Nat) (p : KBEntry × Nat) :
    SearchResult :=
  let norm : ℚ := if maxScore = 0 then 0 else (p.2 : ℚ) / (maxScore : ℚ)
  { id := p.1.id
  , title := p.1.title
  , score := round6 norm
  , snippet := buildSnippet p.1.content qts
  , tags := p.1.tags }

/-- The kept, sorted, truncated entry list of `search_kb`: the stable
descending sort (`scored_entries.sort(..., reverse=True)`) truncated to
the clamped result count (`max(1, min(effective_top_k, 10))` with
`top_k if top_k is not None else settings.KB_TOP_K_DEFAULT`). -/
def keptEntries (defTopK : Int) (tk : Option Int)
    (scored : List (KBEntry × Nat)) : List (KBEntry × Nat) :=
  (List.insertionSort scoreDescOrder scored).take
    (max 1 (min (tk.getD defTopK) 10)).toNat

/-- The normalization denominator of `search_kb`: the top kept entry's
combined score (`top_entries[0][1]`), 0 when nothing is kept. -/
def topScore (kept : List (KBEntry × Nat)) : Nat :=
  ((kept.head?).map Prod.snd).getD 0

/-- `search_kb` of `search_kb.py`, over an already-loaded knowledge base
`kb` (the JSON-document load and its mtime cache are I/O and are not part
of the ranking algorithm).  `defTopK` is the configured
`KB_TOP_K_DEFAULT`. -/
def searchKb (defTopK : Int) (kb : List KBEntry) (query : Str)
    (topK : Option Int) (filters : Option Filters) :
    Except PyErr (List SearchResult) :=
  if pyStrip query = [] then .error .valueError
  else
    match scoredEntries (tokenize query) filters kb with
    | .error e => .error e
    | .ok scored =>
      .ok ((keptEntries defTopK topK scored).map
        (renderResult (tokenize query) (topScore (keptEntries defTopK topK scored))))

/-- A Python value, as far as tool arguments decoded from JSON need:
strings, integers, `None`, lists and dictionaries. -/
inductive PyVal where
  | pstr (s : Str)
  | pint (n : Int)
  | pnone
  | plist (l : List PyVal)
  | pdict (l : List (Str × PyVal))

/-- A keyword-argument dictionary (`**args` in `_execute_tool`); keys are
distinct, as in a Python dict. -/
abbrev PyArgs := List (Str × PyVal)

/-- Dictionary lookup on a keyword-argument payload. -/
def argGet (args : PyArgs) (k : Str) : Option PyVal := args.lookup k

/-- Python keyword-call binding: `f(**args)` raises `TypeError` when a key
names no parameter of `f` or a parameter without a default is missing. -/
def bindKwargs (args : PyArgs) (params : List Str) (required : List Str) :
    Except PyErr Unit :=
  if args.any (fun kv => !(params.contains kv.1)) then .error .typeError
  else if required.any (fun k => (argGet args k).isNone) then .error .typeError
  else .ok ()

/-- Padded decimal rendering `f"{n:06d}"` used for ticket and follow-up
identifiers. -/
def pad6 (n : Nat) : Str :=
  let d := Nat.toDigits 10 n
  List.replicate (6 - d.length) '0' ++ d

/-- One persisted follow-up record (the JSON line appended to
`followups.jsonl`). -/
structure FollowupRec where
  id : Str
  datetimeIso : Str
  contact : Str
  channel : Str

/-- One persisted ticket record (the JSON line appended to
`tickets.jsonl`). -/
structure TicketRec where
  id : Str
  title : Str
  body : Str
  priority : Str

/-- The process-wide mutable state of the two append-only action
recorders: each a counter file plus a log file. -/
structure ToolState where
  ticketCounter : Nat
  tickets : List TicketRec
  followupCounter : Nat
  followups : List FollowupRec

/-- The trailing-`Z` rewrite of `_validate_iso8601` in `followup.py`
(`if s.endswith("Z"): s = s[:-1] + "+00:00"`), applied after stripping.
`parse` below embeds `datetime.fromisoformat` composed with
`.isoformat()`, an external standard-library collaborator. -/
def zNormalize (s : Str) : Str :=
  if s.getLast? = some 'Z' then s.dropLast ++ "+00:00".toList else s

/-- `_validate_iso8601`, continued: non-string or blank input is rejected,
then the Z-normalized string is parsed. -/
def validateIso8601 (parse : Str → Option Str) (v : PyVal) : Except PyErr Str :=
  match v with
  | .pstr dateStr =>
    if pyStrip dateStr = [] then .error .valueError
    else
      match parse (zNormalize (pyStrip dateStr)) with
      | none => .error .valueError
      | some iso => .ok iso
  | _ => .error .valueError

/-- The result value returned by an executed tool. -/
inductive ToolResult where
  | searchRes (results : List SearchResult)
  | ticketRes (ticketId : Str)
  | followupRes (followupId : Str)

/-- `schedule_followup` of `followup.py`: validate the timestamp, the
contact and the channel, then (and only then) allocate the next follow-up
identifier and append the record.  State is the `(counter, log)` pair. -/
def scheduleFollowup (parse : Str → Option Str) (dtIso contact channel : PyVal)
    (counter : Nat) (log : List FollowupRec) :
    Except PyErr ToolResult × (Nat × List FollowupRec) :=
  match validateIso8601 parse dtIso with
  | .error e => (.error e, (counter, log))
  | .ok iso =>
    match contact with
    | .pstr ct =>
      if pyStrip ct = [] then (.error .valueError, (counter, log))
      else
        match channel with
        | .pstr ch =>
          if ch = "email".toList ∨ ch = "phone".toList ∨ ch = "whatsapp".toList then
            let next := counter + 1
            let fid := "FUP-".toList ++ pad6 next
            let rec0 : FollowupRec :=
              { id := fid, datetimeIso := iso, contact := pyStrip ct, channel := ch }
            (.ok (.followupRes fid), (next, log ++ [rec0]))
          else (.error .valueError, (counter, log))
        | _ => (.error .valueError, (counter, log))
    | _ => (.error .valueError, (counter, log))

/-- `create_ticket` of `create_tickets.py`: validate title, body and
priority, then allocate the next ticket identifier and append the
record. -/
def createTicket (title body priority : PyVal)
    (counter : Nat) (log : List TicketRec) :
    Except PyErr ToolResult × (Nat × List TicketRec) :=
  match title with
  | .pstr t =>
    if pyStrip t = [] then (.error .valueError, (counter, log))
    else
      match body with
      | .pstr b =>
        if pyStrip b = [] then (.error .valueError, (counter, log))
        else
          match priority with
          | .pstr p =>
            if p = "low".toList ∨ p = "medium".toList ∨ p = "high".toList then
              let next := counter + 1
              let tid := "TICK-".toList ++ pad6 next
              let rec0 : TicketRec :=
                { id := tid, title := pyStrip t, body := pyStrip b, priority := p }
              (.ok (.ticketRes tid), (next, log ++ [rec0]))
            else (.error .valueError, (counter, log))
          | _ => (.error .valueError, (counter, log))
      | _ => (.error .valueError, (counter, log))
  | _ => (.error .valueError, (counter, log))

/-- Interpretation of the `top_k` argument value inside `search_kb`'s
body: `None` keeps the default, an integer is used as is, anything else
makes the `min`/`max` clamp raise `TypeError`. -/
def topKOfVal (v : PyVal) : Except PyErr (Option Int) :=
  match v with
  | .pnone => .ok none
  | .pint n => .ok (some n)
  | _ => .error .typeError

/-- Interpretation of the `filters` argument value: `None` and the empty
dict are both falsy (`Option.none` of `Filters`); in a non-empty dict the
`audience` value must be a string or `None` (anything else has no
`.strip`) and the `tags` value a list of strings or `None`. -/
def filtersOfVal (v : PyVal) : Except PyErr (Option Filters) :=
  match v with
  | .pnone => .ok none
  | .pdict [] => .ok none
  | .pdict kvs =>
    let aud : Except PyErr (Option Str) :=
      match argGet kvs ("audience".toList) with
      | none | some .pnone => .ok none
      | some (.pstr s) => .ok (some s)
      | some _ => .error .attributeError
    match aud with
    | .error e => .error e
    | .ok a =>
      let tg : Except PyErr (Option (List Str)) :=
        match argGet kvs ("tags".toList) with
        | none | some .pnone => .ok none
        | some (.plist l) =>
          if l.all (fun x => match x with | .pstr _ => true | _ => false)
          then .ok (some (l.filterMap (fun x => match x with | .pstr s => some s | _ => none)))
          else .error .typeError
        | some _ => .error .typeError
      match tg with
      | .error e => .error e
      | .ok t => .ok (some ⟨a, t⟩)
  | _ => .error .typeError

/-- `_execute_tool` of `runner.py`: dispatch on the tool name, binding the
keyword arguments against the named function's actual Python signature and
then running its body.  `parse` is the `datetime.fromisoformat` model and
`defTopK` the configured default result count. -/
def executeTool (parse : Str → Option Str) (defTopK : Int) (kb : List KBEntry)
    (name : Str) (args : PyArgs) (st : ToolState) :
    Except PyErr ToolResult × ToolState :=
  if name = "search_kb".toList then
    match bindKwargs args ["query".toList, "top_k".toList, "filters".toList]
        ["query".toList] with
    | .error e => (.error e, st)
    | .ok _ =>
      let qv := (argGet args ("query".toList)).getD .pnone
      let tv := (argGet args ("top_k".toList)).getD .pnone
      let fv := (argGet args ("filters".toList)).getD .pnone
      match qv with
      | .pstr q =>
        if pyStrip q = [] then (.error .valueError, st)
        else
          match topKOfVal tv with
          | .error e => (.error e, st)
          | .ok tk =>
            match filtersOfVal fv with
            | .error e => (.error e, st)
            | .ok fs =>
              match searchKb defTopK kb q tk fs with
              | .error e => (.error e, st)
              | .ok rs => (.ok (.searchRes rs), st)
      | _ => (.error .valueError, st)
  else if name = "create_ticket".toList then
    match bindKwargs args ["title".toList, "body".toList, "priority".toList]
        ["title".toList, "body".toList, "priority".toList] with
    | .error e => (.error e, st)
    | .ok _ =>
      let tv := (argGet args ("title".toList)).getD .pnone
      let bv := (argGet args ("body".toList)).getD .pnone
      let pv := (argGet args ("priority".toList)).getD .pnone
      match createTicket tv bv pv st.ticketCounter st.tickets with
      | (res, (c, l)) => (res, { st with ticketCounter := c, tickets := l })
  else if name = "schedule_followup".toList then
    match bindKwargs args
        ["datetime_iso".toList, "contact".toList, "channel".toList]
        ["datetime_iso".toList, "contact".toList, "channel".toList] with
    | .error e => (.error e, st)
    | .ok _ =>
      let dv := (argGet args ("datetime_iso".toList)).getD .pnone
      let cv := (argGet args ("contact".toList)).getD .pnone
      let hv := (argGet args ("channel".toList)).getD .pnone
      match scheduleFollowup parse dv cv hv st.followupCounter st.followups with
      | (res, (c, l)) => (res, { st with followupCounter := c, followups := l })
  else (.error .valueError, st)

/-- One tool invocation request extracted from an engine response by
`_extract_function_calls` (both `call_id` and `name` nonempty).
`argsParse` models `json.loads` on the `arguments` string followed by the
dict check: `some` payload when the string parses to a JSON object, `none`
when parsing fails or yields a non-object (the `except` branch). -/
structure ToolRequest where
  callId : Str
  name : Str
  argsParse : Option PyArgs

/-- One reasoning-engine response, reduced to what the loop extracts from
it: the function calls (`_extract_function_calls`) and the joined message
text (`_extract_text_from_response`, already stripped). -/
structure EngineResp where
  calls : List ToolRequest
  text : Str

/-- The audit record appended by the loop for each executed invocation
(`tool_call_records.append({...})` in `run_task`). -/
structure ToolRecord where
  name : Str
  arguments : PyArgs
  result : ToolResult

/-- The failure modes of `run_task`:  blank task or missing key
(`ValueError` before any engine call), deadline exceeded (`TimeoutError`),
iteration cap exceeded (the `ValueError` carrying the configured cap in
its message — the source defines no dedicated exception class), a tool
exception propagating out of `_execute_tool`, and exhaustion of the
modelled response script (the remote engine, being external, is modelled
as a finite script of responses). -/
inductive RunErr where
  | validationError
  | timeoutError
  | iterationCap (cap : Nat)
  | toolError (e : PyErr)
  | engineExhausted

/-- The successful `run_task` payload: final answer, tool-call history in
execution order, and the engine-call count metric. -/
structure RunOk where
  finalAnswer : Str
  toolCalls : List ToolRecord
  openaiCalls : Nat

/-- The outcome of `run_task`; a failure also records how many engine
calls had been issued when it was raised. -/
inductive RunOutcome where
  | ok (r : RunOk)
  | err (e : RunErr) (openaiCalls : Nat)

/-- The fallback final answer substituted when the terminal response has
no text. -/
def fallbackAnswer : Str :=
  "I couldn't generate a final answer. Please try again.".toList

/-- The `for call_id, name, args_json in calls` body of `run_task`: parse
arguments (substituting the empty payload on failure), execute the tool,
and append a `ToolRecord`; a tool exception aborts the whole loop. -/
def processCalls (exec : Str → PyArgs → ToolState → Except PyErr ToolResult × ToolState) :
    List ToolRequest → ToolState → List ToolRecord →
    Except PyErr (List ToolRecord × ToolState)
  | [], st, recs => .ok (recs, st)
  | r :: rest, st, recs =>
    match exec r.name (r.argsParse.getD []) st with
    | (.error e, _) => .error e
    | (.ok res, st2) =>
      processCalls exec rest st2
        (recs ++ [{ name := r.name, arguments := r.argsParse.getD [], result := res }])

/-- The `while True` loop of `run_task`.  `clock` scripts the successive
`time.time()` readings taken before each engine call; `iters` and `calls`
are the `tool_iterations` and `openai_calls` counters. -/
def runLoop (cap : Nat)
    (exec : Str → PyArgs → ToolState → Except PyErr ToolResult × ToolState)
    (deadline : Nat) :
    List EngineResp → List Nat → Nat → Nat → List ToolRecord → ToolState →
    RunOutcome
  | [], _, _, calls, _, _ => .err .engineExhausted calls
  | _ :: _, [], _, calls, _, _ => .err .engineExhausted calls
  | r :: rrest, t :: trest, iters, calls, recs, st =>
    if deadline < t then .err .timeoutError (calls + 1)
    else if r.calls.isEmpty then
      .ok { finalAnswer := if r.text = [] then fallbackAnswer else r.text
          , toolCalls := recs, openaiCalls := calls + 1 }
    else if cap < iters + 1 then .err (.iterationCap cap) (calls + 1)
    else
      match processCalls exec r.calls st recs with
      | .error e => .err (.toolError e) (calls + 1)
      | .ok (recs2, st2) =>
        runLoop cap exec deadline rrest trest (iters + 1) (calls + 1) recs2 st2

/-- `run_task` of `runner.py`: validate the task text and the API key,
then run the orchestration loop from fresh counters and an empty tool-call
history.  The remote engine is modelled by the finite response script
`resps`; the transcript sent to it does not influence the loop's control
flow and is omitted. -/
def runTask (cap : Nat)
    (exec : Str → PyArgs → ToolState → Except PyErr ToolResult × ToolState)
    (deadline : Nat) (apiKey task : Str)
    (resps : List EngineResp) (clock : List Nat) (st : ToolState) : RunOutcome :=
  if pyStrip task = [] then .err .validationError 0
  else if apiKey = [] then .err .validationError 0
  else runLoop cap exec deadline resps clock 0 0 [] st

theorem strLe_total : ∀ a b : Str, strLe a b = true ∨ strLe b a = true
  | [], _ => Or.inl rfl
  | _ :: _, [] => Or.inr rfl
  | a :: as, b :: bs => by
    rcases lt_trichotomy a b with h | h | h
    · left; simp [strLe, h]
    · subst h
      rcases strLe_total as bs with h2 | h2
      · left; simp [strLe, h2]
      · right; simp [strLe, h2]
    · right; simp [strLe, h]

theorem strLe_trans : ∀ a b c : Str,
    strLe a b = true → strLe b c = true → strLe a c = true
  | [], _, _, _, _ => rfl
  | _ :: _, [], _, h, _ => by simp [strLe] at h
  | _ :: _, _ :: _, [], _, h => by simp [strLe] at h
  | a :: as, b :: bs, c :: cs, h1, h2 => by
    simp only [strLe, Bool.or_eq_true, Bool.and_eq_true, decide_eq_true_eq,
      beq_iff_eq] at h1 h2 ⊢
    rcases h1 with h1 | ⟨rfl, h1⟩
    · rcases h2 with h2 | ⟨rfl, h2⟩
      · exact Or.inl (lt_trans h1 h2)
      · exact Or.inl h1
    · rcases h2 with h2 | ⟨rfl, h2⟩
      · exact Or.inl h2
      · exact Or.inr ⟨rfl, strLe_trans as bs cs h1 h2⟩

theorem keyLe_total (x y : Nat × Str) : keyLe x y = true ∨ keyLe y x = true := by
  rcases lt_trichotomy x.1 y.1 with h | h | h
  · left; simp [keyLe, h]
  · rcases strLe_total x.2 y.2 with h2 | h2
    · left; simp [keyLe, h, h2]
    · right; simp [keyLe, h, h2]
  · right; simp [keyLe, h]

theorem keyLe_trans (x y z : Nat × Str) :
    keyLe x y = true → keyLe y z = true → keyLe x z = true := by
  intro h1 h2
  simp only [keyLe, Bool.or_eq_true, Bool.and_eq_true, decide_eq_true_eq,
    beq_iff_eq] at h1 h2 ⊢
  rcases h1 with h1 | ⟨he1, h1⟩
  · rcases h2 with h2 | ⟨he2, h2⟩
    · exact Or.inl (lt_trans h1 h2)
    · exact Or.inl (he2 ▸ h1)
  · rcases h2 with h2 | ⟨he2, h2⟩
    · exact Or.inl (he1 ▸ h2)
    · exact Or.inr ⟨he1.trans he2, strLe_trans _ _ _ h1 h2⟩

instance : IsTotal (KBEntry × Nat) scoreDescOrder :=
  ⟨fun p q => keyLe_total (sortKey q) (sortKey p)⟩

instance : IsTrans (KBEntry × Nat) scoreDescOrder :=
  ⟨fun _ _ _ h1 h2 => keyLe_trans _ _ _ h2 h1⟩

/-- The scoring loop keeps exactly the entries with nonzero base score, in
knowledge-base order, and each kept combined score dominates its base
score. -/
theorem scoredEntries_ok_spec (qts : List Str) (f : Option Filters) :
    ∀ kb l, scoredEntries qts f kb = .ok l →
      l.map Prod.fst = kb.filter (fun e => decide (scoreEntry e qts ≠ 0)) ∧
      ∀ p ∈ l, scoreEntry p.1 qts ≠ 0 ∧ scoreEntry p.1 qts ≤ p.2 := by
  intro kb
  induction kb with
  | nil =>
    intro l h
    simp only [scoredEntries] at h
    cases h
    simp
  | cons e rest ih =>
    intro l h
    simp only [scoredEntries] at h
    by_cases hb : scoreEntry e qts = 0
    · rw [if_pos hb] at h
      rcases ih l h with ⟨h1, h2⟩
      refine ⟨?_, h2⟩
      rw [List.filter_cons_of_neg (by simpa using hb), h1]
    · rw [if_neg hb] at h
      cases hbon : softPreferenceBonus e qts f with
      | error err => rw [hbon] at h; cases h
      | ok b =>
        rw [hbon] at h
        cases hrest : scoredEntries qts f rest with
        | error err => rw [hrest] at h; cases h
        | ok l' =>
          rw [hrest] at h
          cases h
          rcases ih l' hrest with ⟨h1, h2⟩
          constructor
          · rw [List.filter_cons_of_pos (by simpa using hb)]
            simpa using h1
          · intro p hp
            rcases List.mem_cons.mp hp with rfl | hp'
            · exact ⟨hb, Nat.le_add_right _ _⟩
            · exact h2 p hp'

/-- When the bonus computation cannot raise, the whole scoring loop
succeeds. -/
theorem scoredEntries_isOk (qts : List Str) (f : Option Filters)
    (hb : ∀ e, ∃ n, softPreferenceBonus e qts f = .ok n) :
    ∀ kb, ∃ l, scoredEntries qts f kb = .ok l := by
  intro kb
  induction kb with
  | nil => exact ⟨[], rfl⟩
  | cons e rest ih =>
    rcases ih with ⟨l, hl⟩
    rcases hb e with ⟨n, hn⟩
    by_cases hz : scoreEntry e qts = 0
    · exact ⟨l, by simp [scoredEntries, hz, hl]⟩
    · exact ⟨(e, scoreEntry e qts + n) :: l, by simp [scoredEntries, hz, hn, hl]⟩

/-- `pyRound` is the identity on integers. -/
theorem pyRound_coe_int (n : ℤ) : pyRound (n : ℚ) = n := by
  unfold pyRound
  rw [Int.floor_intCast]
  norm_num

theorem round6_one : round6 1 = 1 := by
  unfold round6
  rw [show (1 : ℚ) * 1000000 = ((1000000 : ℤ) : ℚ) by norm_num, pyRound_coe_int]
  norm_num

theorem round6_half : round6 (1 / 2) = 1 / 2 := by
  unfold round6
  rw [show (1 / 2 : ℚ) * 1000000 = ((500000 : ℤ) : ℚ) by norm_num, pyRound_coe_int]
  norm_num

/-- Destructuring a successful `searchKb` call into its pipeline stages:
nonblank query, successful scoring pass, then sort / truncate / render. -/
theorem searchKb_ok_elim (defTopK : Int) (kb : List KBEntry) (q : Str)
    (tk : Option Int) (f : Option Filters) (rs : List SearchResult)
    (h : searchKb defTopK kb q tk f = .ok rs) :
    pyStrip q ≠ [] ∧
    ∃ scored, scoredEntries (tokenize q) f kb = .ok scored ∧
      rs = (keptEntries defTopK tk scored).map
        (renderResult (tokenize q) (topScore (keptEntries defTopK tk scored))) := by
  unfold searchKb at h
  by_cases hq : pyStrip q = []
  · rw [if_pos hq] at h; cases h
  · rw [if_neg hq] at h
    refine ⟨hq, ?_⟩
    cases hse : scoredEntries (tokenize q) f kb with
    | error e => rw [hse] at h; cases h
    | ok scored =>
      rw [hse] at h
      refine ⟨scored, rfl, ?_⟩
      cases h
      rfl

/-- The first entry of the knowledge-base fixture used by the repository's
tests (`tests/conftest.py`). -/
def kbEntry1 : KBEntry :=
  { id := "KB-001".toList
  , title := "CRM integration basics".toList
  , tags := ["crm".toList, "integration".toList]
  , audience := "customer".toList
  , lastUpdated := some ("2024-06-10".toList)
  , content := "Use the CRM integration to sync accounts.".toList }

/-- The second entry of the test fixture knowledge base. -/
def kbEntry2 : KBEntry :=
  { id := "KB-002".toList
  , title := "Email troubleshooting".toList
  , tags := ["email".toList]
  , audience := "internal".toList
  , lastUpdated := some ("2024-06-05".toList)
  , content := "If email fails, check the SMTP settings.".toList }

/-- The third entry of the test fixture knowledge base. -/
def kbEntry3 : KBEntry :=
  { id := "KB-003".toList
  , title := "CRM escalation guide".toList
  , tags := ["crm".toList, "operations".toList, "escalation".toList]
  , audience := "internal".toList
  , lastUpdated := some ("2024-06-12".toList)
  , content := "Escalate CRM issues to the operations team.".toList }

/-- C9: two non-blank queries with the same tokenization — in particular a
query using a vendor-specific term and the query using the generic
category it folds to in the synonym table — produce identical ranked
results (same entries, order, scores and snippets) over the same
knowledge base. -/
theorem claim_c9_synonym_fold_invariance (defTopK : Int) (kb : List KBEntry)
    (tk : Option Int) (f : Option Filters) (q1 q2 : Str)
    (h1 : pyStrip q1 ≠ []) (h2 : pyStrip q2 ≠ [])
    (ht : tokenize q1 = tokenize q2) :
    searchKb defTopK kb q1 tk f = searchKb defTopK kb q2 tk f := by
  unfold searchKb
  rw [if_neg h1, if_neg h2, ht]

theorem claim_c9_witness :
    searchKb 5 [kbEntry1, kbEntry2, kbEntry3] ("hubspot integration".toList) none none
      = searchKb 5 [kbEntry1, kbEntry2, kbEntry3] ("crm integration".toList) none none :=
  claim_c9_synonym_fold_invariance 5 [kbEntry1, kbEntry2, kbEntry3] none none
    ("hubspot integration".toList) ("crm integration".toList)
    (by decide) (by decide) (by decide)

/-- An internal-audience entry with no escalation markers, used to show
the audience-filter bonus is conditional. -/
def kbInternalPlain : KBEntry :=
  { id := "KB-X".toList
  , title := "CRM notes".toList
  , tags := []
  , audience := "internal".toList
  , lastUpdated := none
  , content := "crm".toList }

/-- C3 counterexample: (i) a filters dict that carries tags but no
audience value makes `search_kb` raise `AttributeError` instead of
returning normally; (ii) for a non-troubleshooting query, an entry whose
audience matches the requested audience `internal` receives no bonus at
all — the same bonus as with no filters. -/
theorem claim_c3_counterexample :
    searchKb 5 [kbEntry1] ("crm".toList) none
        (some { audience := none, tags := some ["crm".toList] })
      = .error .attributeError ∧
    softPreferenceBonus kbInternalPlain ["crm".toList]
        (some { audience := some ("internal".toList), tags := none }) = .ok 0 ∧
    softPreferenceBonus kbInternalPlain ["crm".toList] none = .ok 0 :=
  ⟨rfl, rfl, rfl⟩

/-- C3 (amended): with a non-blank query and filters that do include an
audience value, `search_kb` returns normally; filters never exclude an
entry (the kept-entry set is exactly the entries of nonzero base score,
the same as with no filters); the bonus decomposes as the filter-free
bonus plus the conditional audience-filter bonus (granted only when the
requested audience aligns with the query's troubleshooting classification
and matches the entry) plus one point per shared distinct non-blank
filter tag. -/
theorem claim_c3_filter_bias (defTopK : Int) (kb : List KBEntry) (q : Str)
    (tk : Option Int) (av : Str) (tg : Option (List Str))
    (hq : pyStrip q ≠ []) :
    (∃ rs, searchKb defTopK kb q tk (some { audience := some av, tags := tg }) = .ok rs) ∧
    (∀ l, scoredEntries (tokenize q) (some { audience := some av, tags := tg }) kb = .ok l →
      l.map Prod.fst = kb.filter (fun e => decide (scoreEntry e (tokenize q) ≠ 0))) ∧
    (∀ e : KBEntry,
      softPreferenceBonus e (tokenize q) none = .ok (softBaseBonus e (tokenize q)) ∧
      softPreferenceBonus e (tokenize q) (some { audience := some av, tags := tg }) =
        .ok (softBaseBonus e (tokenize q) + audienceFilterBonus e (tokenize q) av +
             tagsFilterBonus e tg)) := by
  refine ⟨?_, ?_, fun e => ⟨rfl, rfl⟩⟩
  · obtain ⟨l, hl⟩ := scoredEntries_isOk (tokenize q)
      (some { audience := some av, tags := tg }) (fun e => ⟨_, rfl⟩) kb
    refine ⟨(keptEntries defTopK tk l).map
      (renderResult (tokenize q) (topScore (keptEntries defTopK tk l))), ?_⟩
    unfold searchKb
    rw [if_neg hq, hl]
  · intro l hl
    exact (scoredEntries_ok_spec _ _ kb l hl).1

theorem claim_c3_filter_bias_witness :
    (∃ rs, searchKb 5 [kbEntry1, kbEntry2, kbEntry3] ("crm".toList) none
        (some { audience := some ("customer".toList)
              , tags := some ["integration".toList] }) = .ok rs) ∧
    (∀ l, scoredEntries (tokenize ("crm".toList))
        (some { audience := some ("customer".toList)
              , tags := some ["integration".toList] }) [kbEntry1, kbEntry2, kbEntry3] = .ok l →
      l.map Prod.fst = [kbEntry1, kbEntry2, kbEntry3].filter
        (fun e => decide (scoreEntry e (tokenize ("crm".toList)) ≠ 0))) ∧
    (∀ e : KBEntry,
      softPreferenceBonus e (tokenize ("crm".toList)) none
        = .ok (softBaseBonus e (tokenize ("crm".toList))) ∧
      softPreferenceBonus e (tokenize ("crm".toList))
          (some { audience := some ("customer".toList)
                , tags := some ["integration".toList] }) =
        .ok (softBaseBonus e (tokenize ("crm".toList)) +
             audienceFilterBonus e (tokenize ("crm".toList)) ("customer".toList) +
             tagsFilterBonus e (some ["integration".toList]))) :=
  claim_c3_filter_bias 5 [kbEntry1, kbEntry2, kbEntry3] ("crm".toList) none
    ("customer".toList) (some ["integration".toList]) (by decide)

/-- C4: a successful `search_kb` call never returns an entry with zero
base score; every returned score is the entry's combined score divided by
the top kept entry's combined score, rounded to six decimal places; an
entry whose combined score is half the top score scores `1/2`; and the
head result's score is `1`. -/
theorem claim_c4_zero_exclusion_and_normalization
    (defTopK : Int) (kb : List KBEntry) (q : Str) (tk : Option Int)
    (f : Option Filters) (rs : List SearchResult)
    (h : searchKb defTopK kb q tk f = .ok rs) :
    (∀ r ∈ rs, ∃ e, e ∈ kb ∧ r.id = e.id ∧ scoreEntry e (tokenize q) ≠ 0) ∧
    (∃ scored, scoredEntries (tokenize q) f kb = .ok scored ∧
      rs = (keptEntries defTopK tk scored).map
        (renderResult (tokenize q) (topScore (keptEntries defTopK tk scored))) ∧
      (∀ p ∈ keptEntries defTopK tk scored,
        (renderResult (tokenize q) (topScore (keptEntries defTopK tk scored)) p).score
          = round6 ((p.2 : ℚ) / (topScore (keptEntries defTopK tk scored) : ℚ)) ∧
        (2 * p.2 = topScore (keptEntries defTopK tk scored) →
          (renderResult (tokenize q) (topScore (keptEntries defTopK tk scored)) p).score
            = 1 / 2))) ∧
    (∀ r0, rs.head? = some r0 → r0.score = 1) := by
  obtain ⟨hq, scored, hse, hrs⟩ := searchKb_ok_elim defTopK kb q tk f rs h
  obtain ⟨hmap, hall⟩ := scoredEntries_ok_spec (tokenize q) f kb scored hse
  have hmemScored : ∀ p ∈ keptEntries defTopK tk scored, p ∈ scored := by
    intro p hp
    have h1 : p ∈ List.insertionSort scoreDescOrder scored :=
      List.take_subset _ _ hp
    exact (List.mem_insertionSort scoreDescOrder).mp h1
  have hkb : ∀ p ∈ keptEntries defTopK tk scored, p.1 ∈ kb := by
    intro p hp
    have hm : p.1 ∈ scored.map Prod.fst :=
      List.mem_map_of_mem Prod.fst (hmemScored p hp)
    rw [hmap] at hm
    exact List.mem_of_mem_filter hm
  have hbase : ∀ p ∈ keptEntries defTopK tk scored,
      scoreEntry p.1 (tokenize q) ≠ 0 ∧ 1 ≤ p.2 := by
    intro p hp
    obtain ⟨h0, hle⟩ := hall p (hmemScored p hp)
    exact ⟨h0, le_trans (Nat.one_le_iff_ne_zero.mpr h0) hle⟩
  have hM : keptEntries defTopK tk scored ≠ [] →
      1 ≤ topScore (keptEntries defTopK tk scored) := by
    intro hne
    cases hk : keptEntries defTopK tk scored with
    | nil => exact absurd hk hne
    | cons p0 tl =>
      have hp0 : p0 ∈ keptEntries defTopK tk scored := by
        rw [hk]; exact List.mem_cons_self _ _
      have h2 := (hbase p0 hp0).2
      simpa [topScore, hk] using h2
  refine ⟨?_, ⟨scored, hse, hrs, ?_⟩, ?_⟩
  · intro r hr
    rw [hrs] at hr
    obtain ⟨p, hp, hrp⟩ := List.mem_map.mp hr
    exact ⟨p.1, hkb p hp, by rw [← hrp]; rfl, (hbase p hp).1⟩
  · intro p hp
    have hne : keptEntries defTopK tk scored ≠ [] := by
      intro h0; rw [h0] at hp; cases hp
    have hMne : topScore (keptEntries defTopK tk scored) ≠ 0 := by
      have := hM hne; omega
    constructor
    · show round6 (if topScore (keptEntries defTopK tk scored) = 0 then 0
          else (p.2 : ℚ) / (topScore (keptEntries defTopK tk scored) : ℚ)) = _
      rw [if_neg hMne]
    · intro h2
      have hp2 : (p.2 : ℚ) ≠ 0 := by
        have := (hbase p hp).2
        exact_mod_cast Nat.pos_iff_ne_zero.mp (by omega)
      show round6 (if topScore (keptEntries defTopK tk scored) = 0 then 0
          else (p.2 : ℚ) / (topScore (keptEntries defTopK tk scored) : ℚ)) = _
      rw [if_neg hMne, ← h2]
      have hcast : ((2 * p.2 : ℕ) : ℚ) = 2 * (p.2 : ℚ) := by push_cast; ring
      rw [hcast]
      rw [show (p.2 : ℚ) / (2 * (p.2 : ℚ)) = 1 / 2 by
        field_simp; ring]
      exact round6_half
  · intro r0 hr0
    rw [hrs] at hr0
    cases hk : keptEntries defTopK tk scored with
    | nil => rw [hk] at hr0; cases hr0
    | cons p0 tl =>
      rw [hk] at hr0
      simp only [List.map_cons, List.head?_cons, Option.some.injEq] at hr0
      have hp0 : p0 ∈ keptEntries defTopK tk scored := by
        rw [hk]; exact List.mem_cons_self _ _
      have hz : p0.2 ≠ 0 := by have := (hbase p0 hp0).2; omega
      rw [← hr0]
      show round6 (if topScore (p0 :: tl) = 0 then 0
          else (p0.2 : ℚ) / (topScore (p0 :: tl) : ℚ)) = 1
      have ht : topScore (p0 :: tl) = p0.2 := rfl
      rw [ht, if_neg hz, div_self (by exact_mod_cast hz)]
      exact round6_one

theorem claim_c4_witness :
    ∃ rs, searchKb 5 [kbEntry1, kbEntry2, kbEntry3] ("crm integration".toList)
        (some 2) none = .ok rs ∧
      ((∀ r ∈ rs, ∃ e, e ∈ [kbEntry1, kbEntry2, kbEntry3] ∧ r.id = e.id ∧
          scoreEntry e (tokenize ("crm integration".toList)) ≠ 0) ∧
      (∃ scored, scoredEntries (tokenize ("crm integration".toList)) none
          [kbEntry1, kbEntry2, kbEntry3] = .ok scored ∧
        rs = (keptEntries 5 (some 2) scored).map
          (renderResult (tokenize ("crm integration".toList))
            (topScore (keptEntries 5 (some 2) scored))) ∧
        (∀ p ∈ keptEntries 5 (some 2) scored,
          (renderResult (tokenize ("crm integration".toList))
              (topScore (keptEntries 5 (some 2) scored)) p).score
            = round6 ((p.2 : ℚ) / (topScore (keptEntries 5 (some 2) scored) : ℚ)) ∧
          (2 * p.2 = topScore (keptEntries 5 (some 2) scored) →
            (renderResult (tokenize ("crm integration".toList))
                (topScore (keptEntries 5 (some 2) scored)) p).score = 1 / 2))) ∧
      (∀ r0, rs.head? = some r0 → r0.score = 1)) :=
  ⟨_, rfl, claim_c4_zero_exclusion_and_normalization 5
    [kbEntry1, kbEntry2, kbEntry3] ("crm integration".toList) (some 2) none _ rfl⟩

/-- C8: a successful `search_kb` call clamps the result count to `[1, 10]`
(defaulting to the configured value when absent), truncates to that bound,
and returns the kept entries in combined-score-descending order with ties
broken by `last_updated` descending, a missing date comparing as the empty
string. -/
theorem claim_c8_order_and_clamp (defTopK : Int) (kb : List KBEntry)
    (q : Str) (tk : Option Int) (f : Option Filters) (rs : List SearchResult)
    (h : searchKb defTopK kb q tk f = .ok rs) :
    (1 ≤ max 1 (min (tk.getD defTopK) 10) ∧ max 1 (min (tk.getD defTopK) 10) ≤ 10) ∧
    (tk = none → max 1 (min (tk.getD defTopK) 10) = max 1 (min defTopK 10)) ∧
    rs.length ≤ (max 1 (min (tk.getD defTopK) 10)).toNat ∧
    (∃ scored, scoredEntries (tokenize q) f kb = .ok scored ∧
      rs = (keptEntries defTopK tk scored).map
        (renderResult (tokenize q) (topScore (keptEntries defTopK tk scored))) ∧
      List.Sorted scoreDescOrder (keptEntries defTopK tk scored)) ∧
    (∀ p p' : KBEntry × Nat, scoreDescOrder p p' ↔
      (p'.2 < p.2 ∨ (p'.2 = p.2 ∧
        strLe (p'.1.lastUpdated.getD []) (p.1.lastUpdated.getD []) = true))) := by
  obtain ⟨hq, scored, hse, hrs⟩ := searchKb_ok_elim defTopK kb q tk f rs h
  refine ⟨⟨le_max_left _ _, max_le (by norm_num) ((min_le_right _ _))⟩,
    fun htk => by rw [htk]; rfl, ?_, ⟨scored, hse, hrs, ?_⟩, ?_⟩
  · rw [hrs]
    rw [List.length_map]
    unfold keptEntries
    rw [List.length_take]
    exact min_le_left _ _
  · unfold keptEntries
    exact (List.sorted_insertionSort scoreDescOrder scored).sublist
      (List.take_sublist _ _)
  · intro p p'
    unfold scoreDescOrder keyLe sortKey
    simp [Bool.or_eq_true, Bool.and_eq_true, decide_eq_true_eq, beq_iff_eq]

theorem claim_c8_witness :
    ∃ rs, searchKb 5 [kbEntry1, kbEntry2, kbEntry3] ("crm".toList)
        (some 999) none = .ok rs ∧
      ((1 ≤ max 1 (min ((some (999 : Int)).getD 5) 10) ∧
          max 1 (min ((some (999 : Int)).getD 5) 10) ≤ 10) ∧
      (some (999 : Int) = none →
          max 1 (min ((some (999 : Int)).getD 5) 10) = max 1 (min 5 10)) ∧
      rs.length ≤ (max 1 (min ((some (999 : Int)).getD 5) 10)).toNat ∧
      (∃ scored, scoredEntries (tokenize ("crm".toList)) none
          [kbEntry1, kbEntry2, kbEntry3] = .ok scored ∧
        rs = (keptEntries 5 (some 999) scored).map
          (renderResult (tokenize ("crm".toList))
            (topScore (keptEntries 5 (some 999) scored))) ∧
        List.Sorted scoreDescOrder (keptEntries 5 (some 999) scored)) ∧
      (∀ p p' : KBEntry × Nat, scoreDescOrder p p' ↔
        (p'.2 < p.2 ∨ (p'.2 = p.2 ∧
          strLe (p'.1.lastUpdated.getD []) (p.1.lastUpdated.getD []) = true)))) :=
  ⟨_, rfl, claim_c8_order_and_clamp 5 [kbEntry1, kbEntry2, kbEntry3]
    ("crm".toList) (some 999) none _ rfl⟩

/-- The query tokens the claim describes for snippet building: taken
before synonym folding (the raw lowercased alphanumeric runs of the
query).  This follows the claim's wording and exists only to be compared
against the source's `_build_snippet` input. -/
def preFoldQueryTokens (q : Str) : List Str := alnumRuns (pyLower q)

/-- The snippet the claim describes: the `_build_snippet` window logic
applied to the pre-synonym-fold query tokens. -/
def snippetPreFoldVariant (content q : Str) : Str :=
  buildSnippet content (preFoldQueryTokens q)

/-- A 240-character content whose only query-relevant term sits at offset
231, past the first 220-character window. -/
def content5 : Str := List.replicate 230 'a' ++ " hubspot x".toList

set_option maxRecDepth 100000 in
/-- C5 counterexample: for the query `hubspot` (which folds to `crm`), the
source builds the snippet from the folded tokens, finds no verbatim match
and falls back to the first window, whereas the claim's pre-fold tokens
locate `hubspot` at offset 231 and centre the window there — the two
snippets differ. -/
theorem claim_c5_counterexample :
    tokenize ("hubspot".toList) = ["crm".toList] ∧
    buildSnippet content5 (tokenize ("hubspot".toList))
      = List.replicate 220 'a' ++ ellipsis ∧
    snippetPreFoldVariant content5 ("hubspot".toList)
      ≠ buildSnippet content5 (tokenize ("hubspot".toList)) :=
  ⟨rfl, by decide, by decide⟩

/-- C5 (amended): each returned snippet is `_build_snippet` applied to the
entry's content and the post-synonym-fold tokenized query; empty content
yields an empty snippet; when no (folded) token occurs verbatim the
snippet is the first 220-character window; when the earliest occurrence is
at offset `fp` the snippet is the 220-character window centred there,
clipped at the boundaries with ellipses where clipped. -/
theorem claim_c5_snippet_windowing (defTopK : Int) (kb : List KBEntry)
    (q : Str) (tk : Option Int) (f : Option Filters) (rs : List SearchResult)
    (h : searchKb defTopK kb q tk f = .ok rs) :
    (∀ r ∈ rs, ∃ e, e ∈ kb ∧ r.snippet = buildSnippet e.content (tokenize q)) ∧
    buildSnippet [] (tokenize q) = [] ∧
    (∀ content, content ≠ [] → tokenize q ≠ [] →
      firstTokenPos (pyLower (pyStrip content)) (tokenize q) = none →
      buildSnippet content (tokenize q) = fallbackWindow (pyStrip content)) ∧
    (∀ content fp, content ≠ [] →
      firstTokenPos (pyLower (pyStrip content)) (tokenize q) = some fp →
      buildSnippet content (tokenize q) = windowAt (pyStrip content) fp) := by
  obtain ⟨hq, scored, hse, hrs⟩ := searchKb_ok_elim defTopK kb q tk f rs h
  refine ⟨?_, rfl, ?_, ?_⟩
  · intro r hr
    rw [hrs] at hr
    obtain ⟨p, hp, hrp⟩ := List.mem_map.mp hr
    have hmem : p ∈ scored := (List.mem_insertionSort scoreDescOrder).mp
      (List.take_subset _ _ hp)
    obtain ⟨hmap, _⟩ := scoredEntries_ok_spec (tokenize q) f kb scored hse
    have hkb : p.1 ∈ kb := by
      have hm : p.1 ∈ scored.map Prod.fst := List.mem_map_of_mem Prod.fst hmem
      rw [hmap] at hm
      exact List.mem_of_mem_filter hm
    exact ⟨p.1, hkb, by rw [← hrp]; rfl⟩
  · intro content hc hq0 hfp
    unfold buildSnippet
    rw [if_neg hc, if_neg hq0, hfp]
  · intro content fp hc hfp
    have hq0 : tokenize q ≠ [] := by
      intro h0
      rw [h0] at hfp
      simp [firstTokenPos] at hfp
    unfold buildSnippet
    rw [if_neg hc, if_neg hq0, hfp]

theorem claim_c5_snippet_witness :
    ∃ rs, searchKb 5 [kbEntry1, kbEntry2, kbEntry3] ("crm".toList)
        none none = .ok rs ∧
      ((∀ r ∈ rs, ∃ e, e ∈ [kbEntry1, kbEntry2, kbEntry3] ∧
          r.snippet = buildSnippet e.content (tokenize ("crm".toList))) ∧
      buildSnippet [] (tokenize ("crm".toList)) = [] ∧
      (∀ content, content ≠ [] → tokenize ("crm".toList) ≠ [] →
        firstTokenPos (pyLower (pyStrip content)) (tokenize ("crm".toList)) = none →
        buildSnippet content (tokenize ("crm".toList)) = fallbackWindow (pyStrip content)) ∧
      (∀ content fp, content ≠ [] →
        firstTokenPos (pyLower (pyStrip content)) (tokenize ("crm".toList)) = some fp →
        buildSnippet content (tokenize ("crm".toList)) = windowAt (pyStrip content) fp)) :=
  ⟨_, rfl, claim_c5_snippet_windowing 5 [kbEntry1, kbEntry2, kbEntry3]
    ("crm".toList) none none _ rfl⟩

/-- When every tool execution succeeds, the per-turn call loop appends one
record per request, in request order, each carrying the (possibly
empty-substituted) parsed arguments. -/
theorem processCalls_spec
    (exec : Str → PyArgs → ToolState → Except PyErr ToolResult × ToolState)
    (hexec : ∀ n a s, ∃ r s2, exec n a s = (.ok r, s2)) :
    ∀ reqs st recs, ∃ newRecs st2,
      processCalls exec reqs st recs = .ok (recs ++ newRecs, st2) ∧
      newRecs.map (fun rc => (rc.name, rc.arguments))
        = reqs.map (fun r => (r.name, r.argsParse.getD [])) := by
  intro reqs
  induction reqs with
  | nil => intro st recs; exact ⟨[], st, by simp [processCalls], rfl⟩
  | cons r rest ih =>
    intro st recs
    obtain ⟨res, st2, he⟩ := hexec r.name (r.argsParse.getD []) st
    obtain ⟨newRecs, st3, hpc, hmap⟩ :=
      ih st2 (recs ++ [⟨r.name, r.argsParse.getD [], res⟩])
    refine ⟨⟨r.name, r.argsParse.getD [], res⟩ :: newRecs, st3, ?_, by simp [hmap]⟩
    unfold processCalls
    rw [he]
    dsimp only
    rw [hpc]
    simp

/-- The orchestration loop on a script of `turns` tool-requesting
responses followed by one terminal response: it completes with one engine
call per response and one record per request, provided the iteration cap
and the deadline are not hit and every tool succeeds. -/
theorem runLoop_spec (cap : Nat)
    (exec : Str → PyArgs → ToolState → Except PyErr ToolResult × ToolState)
    (deadline : Nat)
    (hexec : ∀ n a s, ∃ r s2, exec n a s = (.ok r, s2)) :
    ∀ turns final clock iters calls recs st,
      (∀ t ∈ turns, t.calls ≠ []) → final.calls = [] →
      iters + turns.length ≤ cap →
      clock.length = turns.length + 1 → (∀ x ∈ clock, x ≤ deadline) →
      ∃ newRecs,
        runLoop cap exec deadline (turns ++ [final]) clock iters calls recs st
          = .ok { finalAnswer := if final.text = [] then fallbackAnswer else final.text
                , toolCalls := recs ++ newRecs
                , openaiCalls := calls + turns.length + 1 } ∧
        newRecs.map (fun rc => (rc.name, rc.arguments))
          = (turns.flatMap (fun t => t.calls)).map
              (fun r => (r.name, r.argsParse.getD [])) := by
  intro turns
  induction turns with
  | nil =>
    intro final clock iters calls recs st _ hfinal _ hlen hle
    cases clock with
    | nil => cases hlen
    | cons t trest =>
      have ht : ¬ deadline < t := not_lt.mpr (hle t (List.mem_cons_self _ _))
      refine ⟨[], ?_, rfl⟩
      show runLoop cap exec deadline (final :: []) (t :: trest) iters calls recs st = _
      unfold runLoop
      rw [if_neg ht, if_pos (by simp [hfinal])]
      simp
  | cons r turns ih =>
    intro final clock iters calls recs st hturns hfinal hcap hlen hle
    cases clock with
    | nil => cases hlen
    | cons t trest =>
      have ht : ¬ deadline < t := not_lt.mpr (hle t (List.mem_cons_self _ _))
      have hr : r.calls ≠ [] := hturns r (List.mem_cons_self _ _)
      have hcap2 : ¬ cap < iters + 1 := by
        simp only [List.length_cons] at hcap
        omega
      obtain ⟨nr1, st2, hpc, hmap1⟩ := processCalls_spec exec hexec r.calls st recs
      obtain ⟨nr2, hloop, hmap2⟩ := ih final trest (iters + 1) (calls + 1)
        (recs ++ nr1) st2 (fun t ht => hturns t (List.mem_cons_of_mem _ ht)) hfinal
        (by simp only [List.length_cons] at hcap; omega)
        (by simpa using hlen) (fun x hx => hle x (List.mem_cons_of_mem _ hx))
      refine ⟨nr1 ++ nr2, ?_, ?_⟩
      · show runLoop cap exec deadline (r :: (turns ++ [final])) (t :: trest)
            iters calls recs st = _
        unfold runLoop
        rw [if_neg ht, if_neg (by simpa using hr), if_neg hcap2, hpc]
        dsimp only
        rw [hloop]
        simp only [List.append_assoc, List.length_cons]
        congr 2
        omega
      · rw [List.map_append, hmap1, hmap2, List.flatMap_cons, List.map_append]

/-- C7: for a script of `N` tool-requesting turns (one request each)
followed by a terminal turn, with every tool execution succeeding and
neither bound hit, `run_task` reports `openai_calls = N + 1` and a
tool-call history of exactly `N` records in request order; in particular a
first terminal response gives one engine call and no records. -/
theorem claim_c7_engine_call_accounting (cap : Nat)
    (exec : Str → PyArgs → ToolState → Except PyErr ToolResult × ToolState)
    (deadline : Nat) (apiKey task : Str) (turns : List EngineResp)
    (final : EngineResp) (clock : List Nat) (st : ToolState)
    (htask : pyStrip task ≠ []) (hkey : apiKey ≠ [])
    (hexec : ∀ n a s, ∃ r s2, exec n a s = (.ok r, s2))
    (hone : ∀ t ∈ turns, t.calls.length = 1)
    (hfinal : final.calls = [])
    (hcap : turns.length ≤ cap)
    (hlen : clock.length = turns.length + 1)
    (hle : ∀ x ∈ clock, x ≤ deadline) :
    ∃ res, runTask cap exec deadline apiKey task (turns ++ [final]) clock st
        = .ok res ∧
      res.openaiCalls = turns.length + 1 ∧
      res.toolCalls.length = turns.length ∧
      res.toolCalls.map (fun rc => (rc.name, rc.arguments))
        = (turns.flatMap (fun t => t.calls)).map
            (fun r => (r.name, r.argsParse.getD [])) := by
  have hturns : ∀ t ∈ turns, t.calls ≠ [] := by
    intro t ht h0
    have h1 := hone t ht
    rw [h0] at h1
    cases h1
  obtain ⟨newRecs, hl, hm⟩ := runLoop_spec cap exec deadline hexec turns final
    clock 0 0 [] st hturns hfinal (by omega) hlen hle
  have h3 : ∀ l : List EngineResp, (∀ t ∈ l, t.calls.length = 1) →
      (l.flatMap (fun t => t.calls)).length = l.length := by
    intro l
    induction l with
    | nil => intro _; rfl
    | cons a l ih =>
      intro hall
      rw [List.flatMap_cons, List.length_append,
        hall a (List.mem_cons_self _ _),
        ih (fun t ht => hall t (List.mem_cons_of_mem _ ht))]
      simp only [List.length_cons]
      omega
  have hlenrecs : newRecs.length = turns.length := by
    have h2 := congrArg List.length hm
    simp only [List.length_map] at h2
    rw [h2, h3 turns hone]
  refine ⟨⟨if final.text = [] then fallbackAnswer else final.text,
    [] ++ newRecs, 0 + turns.length + 1⟩, ?_, by simp, ?_, ?_⟩
  · unfold runTask
    rw [if_neg htask, if_neg hkey, hl]
  · simpa using hlenrecs
  · simpa using hm

/-- The always-succeeding tool executor used to instantiate the loop
accounting theorem (the loop is agnostic to what the tools return). -/
def okExec : Str → PyArgs → ToolState → Except PyErr ToolResult × ToolState :=
  fun _ _ s => (.ok (.searchRes []), s)

/-- A single tool-requesting engine response carrying one well-formed
`search_kb` call. -/
def oneCallResp : EngineResp :=
  { calls := [{ callId := "call_1".toList, name := "search_kb".toList
              , argsParse := some [("query".toList, .pstr ("crm".toList))] }]
  , text := [] }

/-- A terminal engine response with message text and no tool calls. -/
def finalResp : EngineResp :=
  { calls := [], text := "Here is the answer.".toList }

theorem claim_c7_witness :
    ∃ res, runTask 6 okExec 60 ("test-key".toList) ("tell me about crm".toList)
        ([oneCallResp] ++ [finalResp]) [0, 0] ⟨0, [], 0, []⟩ = .ok res ∧
      res.openaiCalls = [oneCallResp].length + 1 ∧
      res.toolCalls.length = [oneCallResp].length ∧
      res.toolCalls.map (fun rc => (rc.name, rc.arguments))
        = ([oneCallResp].flatMap (fun t => t.calls)).map
            (fun r => (r.name, r.argsParse.getD [])) :=
  claim_c7_engine_call_accounting 6 okExec 60 ("test-key".toList)
    ("tell me about crm".toList) [oneCallResp] finalResp [0, 0] ⟨0, [], 0, []⟩
    (by decide) (by decide)
    (fun n a s => ⟨.searchRes [], s, rfl⟩)
    (by intro t ht; rw [List.mem_singleton] at ht; subst ht; rfl)
    rfl (by decide) rfl (by decide)

/-- A tool-requesting engine response used to drive the loop past its
iteration cap. -/
def alwaysCallResp : EngineResp :=
  { calls := [{ callId := "call_1".toList, name := "search_kb".toList
              , argsParse := some [("query".toList, .pstr ("crm".toList))] }]
  , text := [] }

/-- The empty recorder state (fresh counters, empty logs). -/
def emptyToolState : ToolState :=
  { ticketCounter := 0, tickets := [], followupCounter := 0, followups := [] }

/-- C1: with the cap configured to 2 and an engine that requests a tool on
every turn, `run_task` fails at the iteration cap after exactly `cap + 1`
engine calls — so before a `(cap + 2)`-th call is issued.  The raised
failure is the source's plain `ValueError` carrying only the configured
cap: the `ToolIterationLimitError` (with `trace_id` and `max_iterations`)
that `routes/agent.py` imports from the runner is never defined there. -/
theorem claim_c1_iteration_cap_eval :
    runTask 2 (executeTool (fun _ => none) 5 [kbEntry1]) 60
        ("test-key".toList) ("find crm".toList)
        (List.replicate 3 alwaysCallResp) [0, 0, 0] emptyToolState
      = .err (.iterationCap 2) 3 ∧ 3 = 2 + 1 :=
  ⟨rfl, rfl⟩

/-- C2 counterexample: an engine request for `search_kb` whose argument
string fails to parse is substituted by the empty payload, but the tool's
own rejection (`TypeError`: required argument `query` missing) then
propagates out of the loop and aborts the task — nothing is recorded as a
tool result, contradicting the claim that such a failure never aborts. -/
theorem claim_c2_counterexample :
    runTask 6 (executeTool (fun _ => none) 5 [kbEntry1]) 60
        ("test-key".toList) ("hi".toList)
        [{ calls := [{ callId := "call_1".toList, name := "search_kb".toList
                     , argsParse := none }], text := [] }]
        [0] emptyToolState
      = .err (.toolError .typeError) 1 :=
  rfl

/-- C2 (amended): on argument-parse failure the loop substitutes the empty
payload and still invokes the tool; if the tool then raises, the exception
propagates and `run_task` aborts after that single engine call, appending
no tool record. -/
theorem claim_c2_parse_failure_empty_payload (cap : Nat)
    (exec : Str → PyArgs → ToolState → Except PyErr ToolResult × ToolState)
    (deadline t0 : Nat) (apiKey task cid nm txt : Str) (trest : List Nat)
    (st st2 : ToolState) (e : PyErr)
    (htask : pyStrip task ≠ []) (hkey : apiKey ≠ []) (hcap : ¬ cap < 1)
    (ht : ¬ deadline < t0)
    (hexec : exec nm [] st = (.error e, st2)) :
    runTask cap exec deadline apiKey task
        [{ calls := [{ callId := cid, name := nm, argsParse := none }]
         , text := txt }] (t0 :: trest) st
      = .err (.toolError e) 1 := by
  unfold runTask
  rw [if_neg htask, if_neg hkey]
  unfold runLoop
  rw [if_neg ht, if_neg (by simp), if_neg (by simpa using hcap)]
  unfold processCalls
  simp only [Option.getD_none]
  rw [hexec]

theorem claim_c2_parse_failure_witness :
    runTask 6 (executeTool (fun _ => none) 5 [kbEntry1]) 60
        ("test-key".toList) ("hello there".toList)
        [{ calls := [{ callId := "call_9".toList, name := "search_kb".toList
                     , argsParse := none }], text := [] }]
        (0 :: []) emptyToolState
      = .err (.toolError .typeError) 1 :=
  claim_c2_parse_failure_empty_payload 6 (executeTool (fun _ => none) 5 [kbEntry1])
    60 0 ("test-key".toList) ("hello there".toList) ("call_9".toList)
    ("search_kb".toList) [] [] emptyToolState emptyToolState .typeError
    (by decide) (by decide) (by decide) (by decide) rfl

/-- A string-typed argument value, as required by the catalog's
`{"type": "string"}` properties. -/
def isStrVal : PyVal → Bool
  | .pstr _ => true
  | _ => false

/-- A value admitted by the catalog's `severity` enum
(`["low", "medium", "high", "critical"]`). -/
def isSeverityVal : PyVal → Bool
  | .pstr s => s == "low".toList || s == "medium".toList ||
      s == "high".toList || s == "critical".toList
  | _ => false

/-- Conformance to the `create_ticket` parameter schema advertised by
`_tool_definitions` in `runner.py`: string properties `customer_id`,
`title`, `description`, optional enum `severity`; `required` is
`[customer_id, title, description]`; `additionalProperties` is false. -/
def conformsCreateTicketSchema (args : PyArgs) : Bool :=
  args.all (fun kv =>
    (kv.1 == "customer_id".toList && isStrVal kv.2) ||
    (kv.1 == "title".toList && isStrVal kv.2) ||
    (kv.1 == "description".toList && isStrVal kv.2) ||
    (kv.1 == "severity".toList && isSeverityVal kv.2)) &&
  (argGet args ("customer_id".toList)).isSome &&
  (argGet args ("title".toList)).isSome &&
  (argGet args ("description".toList)).isSome

/-- A `create_ticket` invocation exactly as the advertised catalog schema
prescribes. -/
def catalogTicketArgs : PyArgs :=
  [ ("customer_id".toList, .pstr ("C-1001".toList))
  , ("title".toList, .pstr ("CRM writeback failing".toList))
  , ("description".toList, .pstr ("Hubspot sync fails since morning".toList)) ]

/-- C6: a `create_ticket` request whose arguments conform to the catalog
schema advertised to the engine is rejected with `TypeError` by
`_execute_tool`, because the actual Python signature is
`create_ticket(title, body, priority)` — `customer_id` and `description`
are unexpected keywords and `body`/`priority` are missing.  The recorder
state is untouched. -/
theorem claim_c6_catalog_signature_mismatch :
    conformsCreateTicketSchema catalogTicketArgs = true ∧
    executeTool (fun _ => none) 5 [] ("create_ticket".toList)
        catalogTicketArgs emptyToolState
      = (.error .typeError, emptyToolState) :=
  ⟨rfl, rfl⟩

/-- C10: `_validate_iso8601` accepts a trailing-`Z` timestamp by rewriting
the suffix to `+00:00` before parsing, and `schedule_followup` performs
all validation before allocating an identifier, so any failing call
leaves the follow-up counter and log untouched. -/
theorem claim_c10_followup_validation (parse : Str → Option Str)
    (core iso : Str) (dt contact channel : PyVal)
    (counter : Nat) (log : List FollowupRec)
    (hs : pyStrip (core ++ ['Z']) = core ++ ['Z'])
    (hp : parse (core ++ "+00:00".toList) = some iso) :
    validateIso8601 parse (.pstr (core ++ ['Z'])) = .ok iso ∧
    ((scheduleFollowup parse dt contact channel counter log).1.isOk = false →
      (scheduleFollowup parse dt contact channel counter log).2 = (counter, log)) := by
  constructor
  · unfold validateIso8601
    dsimp only
    rw [hs, if_neg (by simp)]
    unfold zNormalize
    rw [List.getLast?_concat, if_pos rfl, List.dropLast_concat, hp]
  · unfold scheduleFollowup
    cases hval : validateIso8601 parse dt with
    | error e => intro _; rfl
    | ok iso2 =>
      cases contact with
      | pstr ct =>
        dsimp only
        by_cases hct : pyStrip ct = []
        · rw [if_pos hct]; intro _; rfl
        · rw [if_neg hct]
          cases channel with
          | pstr ch =>
            dsimp only
            by_cases hch : ch = "email".toList ∨ ch = "phone".toList ∨
                ch = "whatsapp".toList
            · rw [if_pos hch]
              intro hfail
              cases hfail
            · rw [if_neg hch]; intro _; rfl
          | pint n => intro _; rfl
          | pnone => intro _; rfl
          | plist l => intro _; rfl
          | pdict l => intro _; rfl
      | pint n => intro _; rfl
      | pnone => intro _; rfl
      | plist l => intro _; rfl
      | pdict l => intro _; rfl

/-- A one-point embedding of `datetime.fromisoformat`/`isoformat`,
accepting exactly one offset-qualified timestamp. -/
def parseIsoW : Str → Option Str :=
  fun s => if s = ("2025-01-01T10:00:00+00:00").toList then some s else none

theorem claim_c10_witness :
    validateIso8601 parseIsoW (.pstr (("2025-01-01T10:00:00").toList ++ ['Z']))
      = .ok (("2025-01-01T10:00:00+00:00").toList) ∧
    ((scheduleFollowup parseIsoW (.pstr ("nonsense".toList))
        (.pstr ("alice@example.com".toList)) (.pstr ("email".toList)) 7 []).1.isOk
          = false →
      (scheduleFollowup parseIsoW (.pstr ("nonsense".toList))
        (.pstr ("alice@example.com".toList)) (.pstr ("email".toList)) 7 []).2
          = (7, [])) :=
  claim_c10_followup_validation parseIsoW ("2025-01-01T10:00:00".toList)
    (("2025-01-01T10:00:00+00:00").toList) (.pstr ("nonsense".toList))
    (.pstr ("alice@example.com".toList)) (.pstr ("email".toList)) 7 []
    (by decide) (by decide)
